import Mathlib

/-!
Verification of the JopBear core document model (`src/joplin_file.rs`).

Shallow embedding conventions:
* Rust `&str` / `String` values are embedded as `List Char` (abbreviated
  `Str`).  The source works with byte offsets into UTF-8 text; in this
  embedding offsets are character indices, and the char-boundary side
  conditions of `str::get` are commented where they arise.
* Fallible Rust functions returning `Result<_, &'static str>` are embedded
  as `Except String _`, carrying the exact message strings of the source.
* `chrono::DateTime<Utc>` is embedded as a pair of seconds-since-epoch and
  a nanosecond field (`DateTimeUtc`), and `DateTime::parse_from_rfc3339`
  as an executable RFC 3339 parser (`parseRfc3339`).
* A document's `relative_path : PathBuf` is embedded as its list of path
  segments (`List Str`), the structural decomposition that
  `Path::components` / `Path::iter` produce; each segment is nonempty and
  free of the path separator by construction in Rust.
-/

abbrev Str := List Char

/-- `JoplinFile::MARKER`: the front-matter delimiter line `"---\n"`. -/
def MARKER : Str := ['-', '-', '-', '\n']

/-- `JoplinFile::MARKER_LEN` (4 bytes). -/
def MARKER_LEN : Nat := MARKER.length

/-! ### Rust `str` primitives -/

/-- `str::find(pat)` (offset scanning): first index `≥ i` at which `pat`
occurs, scanning `s` from the front.  Helper for `findSub`. -/
def findSubFrom (pat : Str) : Str → Nat → Option Nat
  | [], i => if pat.isPrefixOf ([] : Str) then some i else none
  | c :: t, i =>
    if pat.isPrefixOf (c :: t) then some i else findSubFrom pat t (i + 1)

/-- `str::find(pat)`: index of the first occurrence of `pat` in `s`. -/
def findSub (s pat : Str) : Option Nat :=
  findSubFrom pat s 0

/-- `s.get(a..b)` for `&str`: `Some` slice when `a ≤ b ≤ len` (char
boundaries are automatic in the `List Char` embedding). -/
def strGetRange (s : Str) (a b : Nat) : Option Str :=
  if a ≤ b ∧ b ≤ s.length then some ((s.drop a).take (b - a)) else none

/-- `s.get(a..)` for `&str`: `Some` tail when `a ≤ len`. -/
def strGetFrom (s : Str) (a : Nat) : Option Str :=
  if a ≤ s.length then some (s.drop a) else none

/-- Rust `char::is_whitespace` (the Unicode `White_Space` property). -/
def rustIsWhitespace (c : Char) : Bool :=
  let n := c.toNat
  (9 ≤ n && n ≤ 13) || n = 32 || n = 133 || n = 160 || n = 5760 ||
  (8192 ≤ n && n ≤ 8202) || n = 8232 || n = 8233 || n = 8239 ||
  n = 8287 || n = 12288

/-- `str::trim_start`. -/
def rustTrimStart (s : Str) : Str :=
  s.dropWhile rustIsWhitespace

/-- `str::trim_end`. -/
def rustTrimEnd (s : Str) : Str :=
  (s.reverse.dropWhile rustIsWhitespace).reverse

/-- `str::trim`. -/
def rustTrim (s : Str) : Str :=
  rustTrimEnd (rustTrimStart s)

/-- Split on `'\n'`, keeping empty pieces (helper for `rustLines`). -/
def splitNl : Str → List Str
  | [] => [[]]
  | '\n' :: t => [] :: splitNl t
  | c :: t =>
    match splitNl t with
    | [] => [[c]]
    | p :: ps => (c :: p) :: ps

/-- Strip one trailing `'\r'` (Rust `lines` tolerates CRLF endings). -/
def stripCr (l : Str) : Str :=
  match l.reverse with
  | '\r' :: t => t.reverse
  | _ => l

/-- `str::lines`: split at `'\n'`, the final line ending optional, each
line stripped of a trailing `'\r'`. -/
def rustLines (s : Str) : List Str :=
  let parts := splitNl s
  let parts :=
    match parts.reverse with
    | [] :: rest => rest.reverse
    | _ => parts
  parts.map stripCr

/-- `str::replace(" ", "-")`: the pattern is a single char, so this is an
exact per-character map. -/
def replaceSpaces (s : Str) : Str :=
  s.map (fun c => if c = ' ' then '-' else c)

/-- Strip the repeated prefix `"dm."` (i.e. the reversed suffix `".md"`);
helper for `trimEndMatchesMd`. -/
def stripDmDot : Str → Str
  | 'd' :: 'm' :: '.' :: rest => stripDmDot rest
  | s => s

/-- `str::trim_end_matches(".md")`: all suffixes matching `".md"` are
REPEATEDLY removed (Rust semantics), realised by stripping the reversed
pattern from the front of the reversed string. -/
def trimEndMatchesMd (s : Str) : Str :=
  (stripDmDot s.reverse).reverse

/-- `Option::ok_or`: convert an `Option` into an `Except` with the given
error message. -/
def okOr (o : Option α) (e : String) : Except String α :=
  match o with
  | some a => .ok a
  | none => .error e

/-! ### Marker Locator (`find_front_matter_start` / `find_front_matter_end`) -/

/-- `JoplinFile::find_front_matter_start`. -/
def findFrontMatterStart (content : Str) : Except String Nat :=
  okOr (findSub content MARKER) "Could not find front matter start marker"

/-- `JoplinFile::find_front_matter_end`.  Mirrors the source exactly,
including the defensive `end_pos > content.len()` bound check. -/
def findFrontMatterEnd (fmStartPos : Nat) (content : Str) : Except String Nat :=
  let afterStartPos := fmStartPos + MARKER_LEN
  match strGetFrom content afterStartPos with
  | none => .error "Could not find front matter after start marker"
  | some contentAfterStart =>
    match findSub contentAfterStart MARKER with
    | none => .error "Could not find end of front matter"
    | some endRelative =>
      let endPos := afterStartPos + endRelative + MARKER_LEN
      if endPos > content.length then
        .error "Could not find end of front matter"
      else
        .ok endPos

/-! ### Field Extractor (`find_front_matter_value`) -/

/-- The closure passed to `lines().find_map(..)` in
`find_front_matter_value`: trim the line; if the trimmed line starts with
`key`, yield the rest of the trimmed line after the key, left-trimmed. -/
def fmLineValue (key line : Str) : Option Str :=
  let trimmed := rustTrim line
  if key.isPrefixOf trimmed then
    some (rustTrimStart (trimmed.drop key.length))
  else
    none

/-- `JoplinFile::find_front_matter_value`: `find_map` stops at the first
line whose trimmed form starts with `key`; the non-emptiness guard is
applied to that single candidate afterwards. -/
def findFrontMatterValue (frontMatter key : Str) : Option Str :=
  let value := (rustLines frontMatter).findSome? (fmLineValue key)
  match value with
  | some v => if !v.isEmpty then some v else none
  | none => none

/-! ### Date Parser (`chrono::DateTime::parse_from_rfc3339` + `to_utc`) -/

/-- `chrono::DateTime<Utc>`: an absolute instant, as seconds since the Unix
epoch plus a nanosecond field (which exceeds `10^9` only for leap-second
representations, as in chrono's `NaiveTime`). -/
structure DateTimeUtc where
  secs : Int
  nanos : Nat
deriving DecidableEq

def charDigit (c : Char) : Nat := c.toNat - 48

/-- Scan exactly two ASCII digits. -/
def parseDigits2 : Str → Option (Nat × Str)
  | c1 :: c2 :: r =>
    if c1.isDigit && c2.isDigit then
      some (charDigit c1 * 10 + charDigit c2, r)
    else
      none
  | _ => none

/-- Scan exactly four ASCII digits. -/
def parseDigits4 : Str → Option (Nat × Str)
  | c1 :: c2 :: c3 :: c4 :: r =>
    if c1.isDigit && c2.isDigit && c3.isDigit && c4.isDigit then
      some (charDigit c1 * 1000 + charDigit c2 * 100 + charDigit c3 * 10 +
        charDigit c4, r)
    else
      none
  | _ => none

/-- Expect a specific character. -/
def expectChar (c : Char) : Str → Option Str
  | c' :: r => if c' = c then some r else none
  | [] => none

/-- The RFC 3339 date/time separator accepted by chrono: `'T'`, `'t'` or
`' '`. -/
def parseSep : Str → Option Str
  | c :: r => if c = 'T' || c = 't' || c = ' ' then some r else none
  | [] => none

/-- First nine fraction digits, padded to nanoseconds. -/
def nanosOfDigits (ds : Str) : Nat :=
  let ds9 := ds.take 9
  (ds9.foldl (fun acc c => acc * 10 + charDigit c) 0) * 10 ^ (9 - ds9.length)

/-- Optional fractional-second part: a `'.'` followed by one or more
digits; absent otherwise. -/
def parseFrac : Str → Option (Nat × Str)
  | '.' :: r =>
    let ds := r.takeWhile Char.isDigit
    if ds.isEmpty then none else some (nanosOfDigits ds, r.dropWhile Char.isDigit)
  | s => some (0, s)

/-- Numeric `HH:MM` offset magnitude in seconds (hours ≤ 23, minutes ≤ 59,
as chrono enforces). -/
def parseOffsetHM (s : Str) : Option (Nat × Str) :=
  match parseDigits2 s with
  | none => none
  | some (hh, r1) =>
    match expectChar ':' r1 with
    | none => none
    | some r2 =>
      match parseDigits2 r2 with
      | none => none
      | some (mm, r3) =>
        if hh ≤ 23 && mm ≤ 59 then some (hh * 3600 + mm * 60, r3) else none

/-- UTC-offset suffix: `'Z'`/`'z'`, or a signed numeric `HH:MM` offset.
A date-time with no offset indicator fails here. -/
def parseOffset : Str → Option (Int × Str)
  | 'Z' :: r => some (0, r)
  | 'z' :: r => some (0, r)
  | '+' :: r => (parseOffsetHM r).map (fun p => ((p.1 : Int), p.2))
  | '-' :: r => (parseOffsetHM r).map (fun p => (-(p.1 : Int), p.2))
  | _ => none

def isLeapYear (y : Int) : Bool :=
  y % 4 = 0 && (y % 100 ≠ 0 || y % 400 = 0)

def daysInMonth (y : Int) (m : Nat) : Nat :=
  if m = 2 then (if isLeapYear y then 29 else 28)
  else if m = 4 || m = 6 || m = 9 || m = 11 then 30
  else 31

/-- Days from the civil epoch 1970-01-01 (Howard Hinnant's algorithm, with
truncating integer division as in the reference C++). -/
def daysFromCivil (y : Int) (m d : Nat) : Int :=
  let y' := if m ≤ 2 then y - 1 else y
  let era := (if 0 ≤ y' then y' else y' - 399) / 400
  let yoe := y' - era * 400
  let doy : Int := (153 * (if 2 < m then (m : Int) - 3 else (m : Int) + 9) + 2) / 5 + d - 1
  let doe := yoe * 365 + yoe / 4 - yoe / 100 + doy
  era * 146097 + doe - 719468

/-- `DateTime::parse_from_rfc3339(..).map(to_utc)` embedded: full date,
separator, time, optional fraction, then a REQUIRED offset, then end of
input; field ranges validated; seconds `60` handled as chrono's
leap-second representation (second 59, nanos + 10^9). -/
def parseRfc3339 (s : Str) : Option DateTimeUtc :=
  match parseDigits4 s with
  | none => none
  | some (y, r1) =>
  match expectChar '-' r1 with
  | none => none
  | some r2 =>
  match parseDigits2 r2 with
  | none => none
  | some (mo, r3) =>
  match expectChar '-' r3 with
  | none => none
  | some r4 =>
  match parseDigits2 r4 with
  | none => none
  | some (d, r5) =>
  match parseSep r5 with
  | none => none
  | some r6 =>
  match parseDigits2 r6 with
  | none => none
  | some (h, r7) =>
  match expectChar ':' r7 with
  | none => none
  | some r8 =>
  match parseDigits2 r8 with
  | none => none
  | some (mi, r9) =>
  match expectChar ':' r9 with
  | none => none
  | some r10 =>
  match parseDigits2 r10 with
  | none => none
  | some (sec, r11) =>
  match parseFrac r11 with
  | none => none
  | some (nano, r12) =>
  match parseOffset r12 with
  | none => none
  | some (offSecs, r13) =>
  match r13 with
  | _ :: _ => none
  | [] =>
    if 1 ≤ mo && mo ≤ 12 && 1 ≤ d && d ≤ daysInMonth y mo &&
        h ≤ 23 && mi ≤ 59 && sec ≤ 60 then
      let secOfDay : Int := h * 3600 + mi * 60 + (if sec = 60 then 59 else sec)
      let nano' := if sec = 60 then nano + 1000000000 else nano
      some ⟨daysFromCivil y mo d * 86400 + secOfDay - offSecs, nano'⟩
    else
      none

/-! ### Field lookups (`find_title`, `find_created`, `find_updated`) -/

def TITLE_KEY : Str := "title:".data
def CREATED_KEY : Str := "created:".data
def UPDATED_KEY : Str := "updated:".data

/-- `JoplinFile::find_title`. -/
def findTitle (frontMatter : Str) : Except String Str :=
  okOr (findFrontMatterValue frontMatter TITLE_KEY) "Could not find title"

/-- `JoplinFile::find_created`. -/
def findCreated (frontMatter : Str) : Except String DateTimeUtc :=
  match okOr (findFrontMatterValue frontMatter CREATED_KEY) "Could not find created" with
  | .error e => .error e
  | .ok created =>
    match parseRfc3339 created with
    | some dt => .ok dt
    | none => .error "Could not parse created date"

/-- `JoplinFile::find_updated`. -/
def findUpdated (frontMatter : Str) : Except String DateTimeUtc :=
  match okOr (findFrontMatterValue frontMatter UPDATED_KEY) "Could not find updated" with
  | .error e => .error e
  | .ok updated =>
    match parseRfc3339 updated with
    | some dt => .ok dt
    | none => .error "Could not parse updated date"

/-! ### Tag Deriver (`build_tags`) -/

/-- The loop body of `build_tags` unrolled over the component list: each
component has spaces replaced by hyphens; every component but the last is
followed by `'/'`; the last is stripped of trailing `".md"` suffixes. -/
def buildTagsAux : List Str → Str
  | [] => []
  | [last] => trimEndMatchesMd (replaceSpaces last)
  | seg :: rest => replaceSpaces seg ++ '/' :: buildTagsAux rest

/-- `JoplinFile::build_tags`: `None` when the path has zero components,
otherwise `'#'` followed by the transformed components. -/
def buildTags (relativePath : List Str) : Option Str :=
  let tagCount := relativePath.length
  if tagCount = 0 then none
  else some ('#' :: buildTagsAux relativePath)

/-! ### Document Builder (`JoplinFile::build`) -/

/-- The `JoplinFile` struct. -/
structure JoplinFile where
  title : Str
  created : DateTimeUtc
  updated : DateTimeUtc
  front_matter : Str
  front_matter_start_pos : Nat
  front_matter_end_pos : Nat
  body : Str
  tags : Option Str
  relative_path : List Str
deriving DecidableEq

/-- `JoplinFile::build`, with each `?` early return written as an explicit
`match`.  `content[front_matter_end_pos..]` is embedded as `List.drop`:
`find_front_matter_end` guarantees `front_matter_end_pos ≤ content.length`
(theorem `findFrontMatterEnd_le_length` below), so the Rust index never
panics and equals the drop. -/
def build (relativePath : List Str) (content : Str) : Except String JoplinFile :=
  match findFrontMatterStart content with
  | .error e => .error e
  | .ok front_matter_start_pos =>
  match findFrontMatterEnd front_matter_start_pos content with
  | .error e => .error e
  | .ok front_matter_end_pos =>
  match okOr (strGetRange content front_matter_start_pos front_matter_end_pos)
      "Could not find front matter" with
  | .error e => .error e
  | .ok front_matter =>
  let body := rustTrim (content.drop front_matter_end_pos)
  match findTitle front_matter with
  | .error e => .error e
  | .ok title =>
  match findCreated front_matter with
  | .error e => .error e
  | .ok created =>
  match findUpdated front_matter with
  | .error e => .error e
  | .ok updated =>
  let tags := buildTags relativePath
  .ok ⟨title, created, updated, front_matter, front_matter_start_pos,
    front_matter_end_pos, body, tags, relativePath⟩

deriving instance DecidableEq for Except

/-! ### Derived notions used in the claim statements -/

/-- The delimiter line `"---\n"` occurs in `t` at offset `i`. -/
def occursAt (t : Str) (i : Nat) : Bool :=
  MARKER.isPrefixOf (t.drop i)

/-- Spec-as-written field extractor for the C2 comparison: scan line by
line and return the first trimmed-and-prefix-stripped value that is
non-empty after left-trimming (i.e. a blank-valued key line is skipped and
the scan continues). -/
def findFrontMatterValueClaim (frontMatter key : Str) : Option Str :=
  (rustLines frontMatter).findSome? (fun line =>
    match fmLineValue key line with
    | some v => if !v.isEmpty then some v else none
    | none => none)

/-- The field extractor as the code actually behaves (amended C2): take
the FIRST line whose trimmed form starts with the key, and yield its
stripped left-trimmed value only if that value is non-empty. -/
def findFrontMatterValueAmended (frontMatter key : Str) : Option Str :=
  match (rustLines frontMatter).find? (fun line => key.isPrefixOf (rustTrim line)) with
  | none => none
  | some line =>
    let v := rustTrimStart ((rustTrim line).drop key.length)
    if v.isEmpty then none else some v

/-- The suffix `".md"`. -/
def mdSuffix : Str := ['.', 'm', 'd']

/-- Strip a single trailing `".md"` suffix if present (the C3 claim's
reading of the final-segment transformation). -/
def stripMdOnce (s : Str) : Str :=
  if mdSuffix.isSuffixOf s then s.take (s.length - 3) else s

/-- Tag derivation as C3 words it, parameterised by the final-segment
suffix-stripping function: `'#'`, then every non-final segment with spaces
replaced by hyphens followed by `'/'`, then the final segment with spaces
replaced by hyphens and its `".md"` handling given by `stripLast`. -/
def buildTagsSpecWith (stripLast : Str → Str) (segs : List Str) : Option Str :=
  match segs with
  | [] => none
  | _ =>
    some ('#' :: ((segs.dropLast.map (fun seg => replaceSpaces seg ++ ['/'])).flatten
      ++ stripLast (replaceSpaces (segs.getLastD []))))

/-! ### Concrete sample inputs (used by witnesses) -/

/-- Spec end-to-end scenario 1 input text (also the Rust `test_build`
fixture). -/
def sampleText1 : Str :=
  "---\ntitle: Test\ncreated: 2024-03-07T23:22:26Z\nupdated: 2024-04-07T08:34:52Z\n---\n".data

/-- Scenario 1 relative path: `"foo.md"`. -/
def samplePath1 : List Str := ["foo.md".data]

/-- The document `build` produces for scenario 1. -/
def sampleDoc1 : JoplinFile :=
  ⟨"Test".data, ⟨1709853746, 0⟩, ⟨1712478892, 0⟩, sampleText1, 0, 80, [],
    some "#foo".data, samplePath1⟩

/-- Spec end-to-end scenario 3 input: `created` lacks a UTC offset. -/
def noOffsetText : Str :=
  "---\ntitle: Test\ncreated: 2024-03-07T23:22:26\nupdated: 2024-04-07T08:34:52Z\n---\n".data

/-- Front matter with no `title:` line and a malformed `created` value. -/
def noTitleText : Str := "---\ncreated: bogus\n---\nrest".data

/-- The front-matter slice of `noTitleText`. -/
def noTitleFm : Str := "---\ncreated: bogus\n---\n".data

/-- A front matter in which a blank-valued `title:` line precedes a
non-empty one (C2 counterexample input). -/
def shadowFm : Str := "title:\ntitle: Real\n".data

/-- C3 counterexample path: the single segment `"foo.md.md"`. -/
def doubleMdPath : List Str := ["foo.md.md".data]

/-! ### Helper lemmas: substring search -/

theorem isPrefixOf_nil_eq (p : Str) (h : p.isPrefixOf ([] : Str) = true) :
    p = [] := by
  cases p with
  | nil => rfl
  | cons a t => simp [List.isPrefixOf] at h

theorem isPrefixOf_length_le (p : Str) :
    ∀ s : Str, p.isPrefixOf s = true → p.length ≤ s.length := by
  induction p with
  | nil => intro s _; simp
  | cons a p ih =>
    intro s h
    cases s with
    | nil => simp [List.isPrefixOf] at h
    | cons b t =>
      rw [List.isPrefixOf, Bool.and_eq_true] at h
      simpa using ih t h.2

theorem findSubFrom_some (pat s : Str) : ∀ i j : Nat,
    findSubFrom pat s i = some j →
    ∃ r, j = i + r ∧ pat.isPrefixOf (s.drop r) = true ∧
      ∀ q, q < r → pat.isPrefixOf (s.drop q) = false := by
  induction s with
  | nil =>
    intro i j h
    rw [findSubFrom] at h
    by_cases hp : pat.isPrefixOf ([] : Str) = true
    · rw [if_pos hp] at h
      injection h with h
      exact ⟨0, by omega, by simpa using hp, fun q hq => absurd hq (Nat.not_lt_zero q)⟩
    · rw [if_neg hp] at h
      exact absurd h (by simp)
  | cons c t ih =>
    intro i j h
    rw [findSubFrom] at h
    by_cases hp : pat.isPrefixOf (c :: t) = true
    · rw [if_pos hp] at h
      injection h with h
      exact ⟨0, by omega, by simpa using hp, fun q hq => absurd hq (Nat.not_lt_zero q)⟩
    · rw [if_neg hp] at h
      obtain ⟨r, hj, hpre, hmin⟩ := ih (i + 1) j h
      refine ⟨r + 1, by omega, by simpa using hpre, ?_⟩
      intro q hq
      cases q with
      | zero => simpa using Bool.of_not_eq_true hp
      | succ q' => simpa using hmin q' (by omega)

theorem findSubFrom_of_occurs (pat s : Str) : ∀ i r : Nat,
    pat.isPrefixOf (s.drop r) = true →
    ∃ j, findSubFrom pat s i = some j ∧ j ≤ i + r := by
  induction s with
  | nil =>
    intro i r h
    have hpat : pat = [] := isPrefixOf_nil_eq pat (by simpa using h)
    subst hpat
    exact ⟨i, by rw [findSubFrom]; simp [List.isPrefixOf], by omega⟩
  | cons c t ih =>
    intro i r h
    rw [findSubFrom]
    by_cases hp : pat.isPrefixOf (c :: t) = true
    · exact ⟨i, by rw [if_pos hp], by omega⟩
    · rw [if_neg hp]
      cases r with
      | zero => rw [List.drop_zero] at h; exact absurd h hp
      | succ r' =>
        obtain ⟨j, hj, hle⟩ := ih (i + 1) r' (by simpa using h)
        exact ⟨j, hj, by omega⟩

theorem findSub_some (s pat : Str) (j : Nat) (h : findSub s pat = some j) :
    pat.isPrefixOf (s.drop j) = true ∧
      ∀ q, q < j → pat.isPrefixOf (s.drop q) = false := by
  obtain ⟨r, hr, hpre, hmin⟩ := findSubFrom_some pat s 0 j h
  have : r = j := by omega
  subst this
  exact ⟨hpre, hmin⟩

theorem findSub_of_occurs (s pat : Str) (r : Nat)
    (h : pat.isPrefixOf (s.drop r) = true) :
    ∃ j, findSub s pat = some j ∧ j ≤ r := by
  obtain ⟨j, hj, hle⟩ := findSubFrom_of_occurs pat s 0 r h
  exact ⟨j, hj, by omega⟩

theorem findSub_none_of_no_occurs (s pat : Str)
    (h : ∀ q, pat.isPrefixOf (s.drop q) = false) :
    findSub s pat = none := by
  cases hf : findSub s pat with
  | none => rfl
  | some j =>
    have := (findSub_some s pat j hf).1
    rw [h j] at this
    exact absurd this (by simp)

theorem occursAt_bound (t : Str) (i : Nat) (h : occursAt t i = true) :
    i + MARKER_LEN ≤ t.length := by
  rw [occursAt] at h
  have hlen := isPrefixOf_length_le MARKER (t.drop i) h
  have hi : i ≤ t.length := by
    by_contra hgt
    push_neg at hgt
    rw [List.drop_eq_nil_of_le (by omega)] at h
    have := isPrefixOf_nil_eq MARKER h
    simp [MARKER] at this
  rw [List.length_drop] at hlen
  simp only [MARKER_LEN, MARKER, List.length_cons, List.length_nil] at hlen ⊢
  omega

theorem occursAt_drop (t : Str) (a r : Nat) :
    MARKER.isPrefixOf ((t.drop a).drop r) = occursAt t (a + r) := by
  rw [List.drop_drop, occursAt]

/-! ### Helper lemmas: marker locator -/

theorem findFrontMatterStart_of_occurs (t : Str) (i : Nat)
    (h : occursAt t i = true) :
    ∃ s, findFrontMatterStart t = .ok s ∧ s ≤ i ∧ occursAt t s = true := by
  obtain ⟨j, hj, hle⟩ := findSub_of_occurs t MARKER i h
  refine ⟨j, ?_, hle, (findSub_some t MARKER j hj).1⟩
  rw [findFrontMatterStart, hj, okOr]

theorem findFrontMatterStart_ok (t : Str) (s : Nat)
    (h : findFrontMatterStart t = .ok s) : findSub t MARKER = some s := by
  rw [findFrontMatterStart] at h
  cases hf : findSub t MARKER with
  | none => rw [hf, okOr] at h; exact absurd h (by simp)
  | some j => rw [hf, okOr] at h; injection h with h; rw [h]

theorem findFrontMatterStart_occurs (t : Str) (s : Nat)
    (h : findFrontMatterStart t = .ok s) : occursAt t s = true :=
  (findSub_some t MARKER s (findFrontMatterStart_ok t s h)).1

/-- When the start marker occurs at `s` and the delimiter occurs again in
the text after the start delimiter (at relative offset `r` found by the
search), `find_front_matter_end` succeeds with offset
`s + MARKER_LEN + r + MARKER_LEN`, which is within bounds: neither of its
error branches fires. -/
theorem findFrontMatterEnd_ok_of_findSub (t : Str) (s r : Nat)
    (hs : occursAt t s = true)
    (hr : findSub (t.drop (s + MARKER_LEN)) MARKER = some r) :
    findFrontMatterEnd s t = .ok (s + MARKER_LEN + r + MARKER_LEN) ∧
      s + MARKER_LEN + r + MARKER_LEN ≤ t.length := by
  have hafter : s + MARKER_LEN ≤ t.length := occursAt_bound t s hs
  have hocc : occursAt t (s + MARKER_LEN + r) = true := by
    have := (findSub_some (t.drop (s + MARKER_LEN)) MARKER r hr).1
    rwa [occursAt_drop] at this
  have hbound : s + MARKER_LEN + r + MARKER_LEN ≤ t.length :=
    occursAt_bound t (s + MARKER_LEN + r) hocc
  refine ⟨?_, hbound⟩
  have hg : strGetFrom t (s + MARKER_LEN) = some (t.drop (s + MARKER_LEN)) := by
    rw [strGetFrom, if_pos hafter]
  simp only [findFrontMatterEnd, hg, hr]
  rw [if_neg (by omega)]

/-- With the start marker at `s` and a second, non-overlapping occurrence
at `j`, the end search succeeds at some relative offset `r ≤ j - s -
MARKER_LEN`. -/
theorem findSub_after_start (t : Str) (s j : Nat)
    (hj : occursAt t j = true) (hsj : s + MARKER_LEN ≤ j) :
    ∃ r, findSub (t.drop (s + MARKER_LEN)) MARKER = some r ∧
      s + MARKER_LEN + r ≤ j := by
  have hocc : MARKER.isPrefixOf ((t.drop (s + MARKER_LEN)).drop (j - (s + MARKER_LEN))) = true := by
    rw [occursAt_drop]
    have : s + MARKER_LEN + (j - (s + MARKER_LEN)) = j := by omega
    rwa [this]
  obtain ⟨r, hr, hle⟩ := findSub_of_occurs _ MARKER _ hocc
  exact ⟨r, hr, by omega⟩

theorem findFrontMatterEnd_ok (t : Str) (s e : Nat)
    (h : findFrontMatterEnd s t = .ok e) :
    ∃ r, findSub (t.drop (s + MARKER_LEN)) MARKER = some r ∧
      e = s + MARKER_LEN + r + MARKER_LEN ∧ e ≤ t.length ∧
      s + MARKER_LEN ≤ t.length := by
  rw [findFrontMatterEnd] at h
  split at h
  · exact Except.noConfusion h
  rename_i tail hg
  split at h
  · exact Except.noConfusion h
  rename_i r hr
  dsimp only at h
  split at h
  · exact Except.noConfusion h
  rename_i hb
  injection h with h
  have hlen : s + MARKER_LEN ≤ t.length := by
    rw [strGetFrom] at hg
    split at hg
    · rename_i hc; exact hc
    · exact Option.noConfusion hg
  have htail : tail = t.drop (s + MARKER_LEN) := by
    rw [strGetFrom, if_pos hlen] at hg
    injection hg with hg
    exact hg.symm
  subst htail
  exact ⟨r, hr, h.symm, by omega, hlen⟩

/-! ### Helper lemmas: builder structure -/

theorem okOr_ok {α : Type} (o : Option α) (e : String) (a : α)
    (h : okOr o e = .ok a) : o = some a := by
  cases o with
  | none => rw [okOr] at h; exact absurd h (by simp)
  | some b => rw [okOr] at h; injection h with h; rw [h]

theorem okOr_err {α : Type} (o : Option α) (e m : String)
    (h : okOr o e = .error m) : o = none ∧ m = e := by
  cases o with
  | none => rw [okOr] at h; injection h with h; exact ⟨rfl, h.symm⟩
  | some b => rw [okOr] at h; exact absurd h (by simp)

/-- Inversion of a successful `build`: each pipeline stage succeeded and
every field of the returned document is determined by its stage. -/
theorem build_ok_fields (rp : List Str) (t : Str) (d : JoplinFile)
    (h : build rp t = .ok d) :
    findFrontMatterStart t = .ok d.front_matter_start_pos ∧
    findFrontMatterEnd d.front_matter_start_pos t = .ok d.front_matter_end_pos ∧
    strGetRange t d.front_matter_start_pos d.front_matter_end_pos = some d.front_matter ∧
    d.body = rustTrim (t.drop d.front_matter_end_pos) ∧
    findTitle d.front_matter = .ok d.title ∧
    findCreated d.front_matter = .ok d.created ∧
    findUpdated d.front_matter = .ok d.updated ∧
    d.tags = buildTags rp ∧ d.relative_path = rp := by
  rw [build] at h
  split at h
  · exact Except.noConfusion h
  rename_i fmStart h1
  split at h
  · exact Except.noConfusion h
  rename_i fmEnd h2
  split at h
  · exact Except.noConfusion h
  rename_i fm h3
  dsimp only at h
  split at h
  · exact Except.noConfusion h
  rename_i title h4
  split at h
  · exact Except.noConfusion h
  rename_i created h5
  split at h
  · exact Except.noConfusion h
  rename_i updated h6
  injection h with h
  subst h
  exact ⟨h1, h2, okOr_ok _ _ _ h3, rfl, h4, h5, h6, rfl, rfl⟩

theorem build_err_of_start_err (rp : List Str) (t : Str) (m : String)
    (h : findFrontMatterStart t = .error m) : build rp t = .error m := by
  simp only [build, h]

theorem build_err_of_end_err (rp : List Str) (t : Str) (s : Nat) (m : String)
    (hs : findFrontMatterStart t = .ok s)
    (h : findFrontMatterEnd s t = .error m) : build rp t = .error m := by
  simp only [build, hs, h]

/-! ### C1 -/

/-- C1: for every text with two non-overlapping occurrences of the
delimiter line `"---\n"` (at `i` and at `j ≥ i + MARKER_LEN`), the marker
locator succeeds with offsets `s < e ≤ length`, the slice extraction
yields exactly the text between those offsets, and any document `build`
returns carries those offsets and that exact slice as `front_matter`. -/
theorem front_matter_located_and_sliced (t : Str) (i j : Nat)
    (hi : occursAt t i = true) (hj : occursAt t j = true)
    (hij : i + MARKER_LEN ≤ j) :
    ∃ s e, findFrontMatterStart t = .ok s ∧ findFrontMatterEnd s t = .ok e ∧
      s < e ∧ e ≤ t.length ∧
      strGetRange t s e = some ((t.drop s).take (e - s)) ∧
      ∀ (rp : List Str) (d : JoplinFile), build rp t = .ok d →
        d.front_matter_start_pos = s ∧ d.front_matter_end_pos = e ∧
        d.front_matter = (t.drop s).take (e - s) := by
  have hml : MARKER_LEN = 4 := rfl
  obtain ⟨s, hsok, hsle, hsocc⟩ := findFrontMatterStart_of_occurs t i hi
  obtain ⟨r, hr, -⟩ := findSub_after_start t s j hj (by omega)
  obtain ⟨heok, hbound⟩ := findFrontMatterEnd_ok_of_findSub t s r hsocc hr
  refine ⟨s, s + MARKER_LEN + r + MARKER_LEN, hsok, heok, by omega, hbound, ?_, ?_⟩
  · rw [strGetRange, if_pos ⟨by omega, hbound⟩]
  · intro rp d hd
    obtain ⟨f1, f2, f3, -⟩ := build_ok_fields rp t d hd
    rw [hsok] at f1
    injection f1 with f1
    rw [← f1] at f2 f3 ⊢
    rw [heok] at f2
    injection f2 with f2
    rw [← f2] at f3 ⊢
    rw [strGetRange, if_pos ⟨by omega, hbound⟩] at f3
    injection f3 with f3
    exact ⟨rfl, rfl, f3.symm⟩

/-- C1 witness: scenario-1 text has delimiter occurrences at 0 and 76. -/
theorem front_matter_located_and_sliced_witness :
    occursAt sampleText1 0 = true ∧ occursAt sampleText1 76 = true ∧
    (∃ s e, findFrontMatterStart sampleText1 = .ok s ∧
      findFrontMatterEnd s sampleText1 = .ok e ∧
      s < e ∧ e ≤ sampleText1.length ∧
      strGetRange sampleText1 s e = some ((sampleText1.drop s).take (e - s)) ∧
      ∀ (rp : List Str) (d : JoplinFile), build rp sampleText1 = .ok d →
        d.front_matter_start_pos = s ∧ d.front_matter_end_pos = e ∧
        d.front_matter = (sampleText1.drop s).take (e - s)) :=
  ⟨by decide, by decide,
    front_matter_located_and_sliced sampleText1 0 76 (by decide) (by decide)
      (by decide)⟩

/-! ### C4 -/

/-- C4: a text with no occurrence of the delimiter line makes `build`
fail with the missing-start-marker error; a text with exactly one
occurrence makes it fail with the missing-end-marker error.  (Occurrences
at offsets `≥ length` are impossible, so quantifying over `k < length` is
exhaustive.) -/
theorem missing_marker_errors (rp : List Str) (t : Str) :
    ((∀ k, k < t.length → occursAt t k = false) →
      build rp t = .error "Could not find front matter start marker") ∧
    (∀ i, occursAt t i = true →
      (∀ k, k < t.length → occursAt t k = true → k = i) →
      build rp t = .error "Could not find end of front matter") := by
  have hml : MARKER_LEN = 4 := rfl
  constructor
  · intro hno
    have hnone : findSub t MARKER = none := by
      apply findSub_none_of_no_occurs
      intro q
      by_cases hq : q < t.length
      · exact hno q hq
      · rw [show (MARKER.isPrefixOf (t.drop q)) = occursAt t q from rfl]
        cases hocc : occursAt t q with
        | false => rfl
        | true =>
          have := occursAt_bound t q hocc
          omega
    apply build_err_of_start_err
    rw [findFrontMatterStart, hnone, okOr]
  · intro i hi huniq
    obtain ⟨s, hsok, hsle, hsocc⟩ := findFrontMatterStart_of_occurs t i hi
    have hslen : s < t.length := by
      have := occursAt_bound t s hsocc
      omega
    have hsi : s = i := huniq s hslen hsocc
    subst hsi
    have hnone : findSub (t.drop (s + MARKER_LEN)) MARKER = none := by
      apply findSub_none_of_no_occurs
      intro q
      rw [occursAt_drop]
      cases hocc : occursAt t (s + MARKER_LEN + q) with
      | false => rfl
      | true =>
        have hb := occursAt_bound t (s + MARKER_LEN + q) hocc
        have heq := huniq (s + MARKER_LEN + q) (by omega) hocc
        exact absurd heq (by omega)
    have hafter : s + MARKER_LEN ≤ t.length := occursAt_bound t s hsocc
    apply build_err_of_end_err rp t s _ hsok
    have hg : strGetFrom t (s + MARKER_LEN) = some (t.drop (s + MARKER_LEN)) := by
      rw [strGetFrom, if_pos hafter]
    simp only [findFrontMatterEnd, hg, hnone]

/-- C4 witness: a delimiter-free text and a single-delimiter text. -/
theorem missing_marker_errors_witness :
    build [] "hello world\n".data = .error "Could not find front matter start marker" ∧
    build [] "---\ntitle: T\n".data = .error "Could not find end of front matter" :=
  ⟨(missing_marker_errors [] "hello world\n".data).1 (by decide),
    (missing_marker_errors [] "---\ntitle: T\n".data).2 0 (by decide)
      (by decide)⟩

/-! ### C6 -/

/-- C6: when the front matter is located and sliced but contains no
usable `title:` line, `build` aborts with the missing-title error — the
title stage runs before the created/updated stages, so this holds no
matter what the `created:`/`updated:` lines contain. -/
theorem missing_title_aborts (rp : List Str) (t : Str) (s e : Nat) (fm : Str)
    (hs : findFrontMatterStart t = .ok s)
    (he : findFrontMatterEnd s t = .ok e)
    (hfm : strGetRange t s e = some fm)
    (hti : findFrontMatterValue fm TITLE_KEY = none) :
    build rp t = .error "Could not find title" := by
  have h3 : okOr (strGetRange t s e) "Could not find front matter" = .ok fm := by
    rw [hfm, okOr]
  have h4 : findTitle fm = .error "Could not find title" := by
    rw [findTitle, hti, okOr]
  simp only [build, hs, he, h3, h4]

/-- C6 witness: front matter with a malformed `created` and no `title`
still fails with the missing-title error. -/
theorem missing_title_aborts_witness :
    build [] noTitleText = .error "Could not find title" :=
  missing_title_aborts [] noTitleText 0 23 noTitleFm (by decide) (by decide)
    (by decide) (by decide)

/-! ### C7 -/

/-- C7: whenever `build` succeeds, the `body` field is the text after
`front_matter_end_pos` with leading and trailing whitespace trimmed. -/
theorem body_is_trimmed_tail (rp : List Str) (t : Str) (d : JoplinFile)
    (h : build rp t = .ok d) :
    d.body = rustTrim (t.drop d.front_matter_end_pos) :=
  (build_ok_fields rp t d h).2.2.2.1

/-- C7 witness: scenario 1, where the trimmed body is empty. -/
theorem body_is_trimmed_tail_witness :
    build samplePath1 sampleText1 = .ok sampleDoc1 ∧
    sampleDoc1.body = rustTrim (sampleText1.drop sampleDoc1.front_matter_end_pos) :=
  ⟨by decide, body_is_trimmed_tail samplePath1 sampleText1 sampleDoc1 (by decide)⟩

/-! ### C8 -/

/-- C8: `build` is a deterministic pure function of `(relative_path, raw
text)`: identical inputs give identical results, and two successful runs
on identical inputs agree field for field (timestamps included). -/
theorem build_deterministic (rp₁ rp₂ : List Str) (t₁ t₂ : Str)
    (hrp : rp₁ = rp₂) (ht : t₁ = t₂) :
    build rp₁ t₁ = build rp₂ t₂ ∧
    ∀ d₁ d₂, build rp₁ t₁ = .ok d₁ → build rp₂ t₂ = .ok d₂ →
      d₁.title = d₂.title ∧ d₁.created = d₂.created ∧ d₁.updated = d₂.updated ∧
      d₁.front_matter = d₂.front_matter ∧
      d₁.front_matter_start_pos = d₂.front_matter_start_pos ∧
      d₁.front_matter_end_pos = d₂.front_matter_end_pos ∧
      d₁.body = d₂.body ∧ d₁.tags = d₂.tags ∧ d₁.relative_path = d₂.relative_path := by
  subst hrp
  subst ht
  refine ⟨rfl, ?_⟩
  intro d₁ d₂ h₁ h₂
  rw [h₁] at h₂
  injection h₂ with h₂
  subst h₂
  exact ⟨rfl, rfl, rfl, rfl, rfl, rfl, rfl, rfl, rfl⟩

/-- C8 witness: two runs on the scenario-1 input. -/
theorem build_deterministic_witness :
    build samplePath1 sampleText1 = build samplePath1 sampleText1 ∧
    ∀ d₁ d₂, build samplePath1 sampleText1 = .ok d₁ →
      build samplePath1 sampleText1 = .ok d₂ →
      d₁.title = d₂.title ∧ d₁.created = d₂.created ∧ d₁.updated = d₂.updated ∧
      d₁.front_matter = d₂.front_matter ∧
      d₁.front_matter_start_pos = d₂.front_matter_start_pos ∧
      d₁.front_matter_end_pos = d₂.front_matter_end_pos ∧
      d₁.body = d₂.body ∧ d₁.tags = d₂.tags ∧ d₁.relative_path = d₂.relative_path :=
  build_deterministic samplePath1 samplePath1 sampleText1 sampleText1 rfl rfl

/-! ### C9 -/

/-- C9: when both the start marker and (after it) the end marker are
found, the two defensive branches are unreachable: the computed end
offset is within the text length (the bound check in
`find_front_matter_end` cannot fire) and the `content[start..end]` slice
extraction succeeds (the missing-front-matter-slice error in `build`
cannot fire). -/
theorem defensive_branches_unreachable (t : Str) (s r : Nat)
    (hs : findFrontMatterStart t = .ok s)
    (hr : findSub (t.drop (s + MARKER_LEN)) MARKER = some r) :
    findFrontMatterEnd s t = .ok (s + MARKER_LEN + r + MARKER_LEN) ∧
      s + MARKER_LEN + r + MARKER_LEN ≤ t.length ∧
      strGetRange t s (s + MARKER_LEN + r + MARKER_LEN) =
        some ((t.drop s).take (MARKER_LEN + r + MARKER_LEN)) := by
  have hsocc := findFrontMatterStart_occurs t s hs
  obtain ⟨hok, hbound⟩ := findFrontMatterEnd_ok_of_findSub t s r hsocc hr
  refine ⟨hok, hbound, ?_⟩
  rw [strGetRange, if_pos ⟨by omega, hbound⟩]
  have harith : s + MARKER_LEN + r + MARKER_LEN - s = MARKER_LEN + r + MARKER_LEN := by
    omega
  rw [harith]

/-- C9 witness: scenario-1 text, start at 0, end search hit at relative
offset 72. -/
theorem defensive_branches_unreachable_witness :
    findFrontMatterEnd 0 sampleText1 = .ok (0 + MARKER_LEN + 72 + MARKER_LEN) ∧
      0 + MARKER_LEN + 72 + MARKER_LEN ≤ sampleText1.length ∧
      strGetRange sampleText1 0 (0 + MARKER_LEN + 72 + MARKER_LEN) =
        some ((sampleText1.drop 0).take (MARKER_LEN + 72 + MARKER_LEN)) :=
  defensive_branches_unreachable sampleText1 0 72 (by decide) (by decide)

/-! ### C10 -/

theorem mem_stripDmDot (c : Char) : ∀ l : Str, c ∈ stripDmDot l → c ∈ l := by
  intro l
  induction l using stripDmDot.induct with
  | case1 rest ih =>
    intro h
    rw [stripDmDot] at h
    simp [ih h]
  | case2 s hne =>
    intro h
    rw [stripDmDot.eq_def] at h
    split at h
    · exact absurd rfl (hne _)
    · exact h

theorem space_not_mem_replaceSpaces (s : Str) : ' ' ∉ replaceSpaces s := by
  rw [replaceSpaces]
  intro hmem
  obtain ⟨c, hc, heq⟩ := List.mem_map.1 hmem
  by_cases h : c = ' '
  · rw [if_pos h] at heq
    exact absurd heq (by decide)
  · rw [if_neg h] at heq
    exact h heq

theorem space_not_mem_trimEndMatchesMd (s : Str) (h : ' ' ∉ s) :
    ' ' ∉ trimEndMatchesMd s := by
  intro hmem
  rw [trimEndMatchesMd, List.mem_reverse] at hmem
  have := mem_stripDmDot ' ' s.reverse hmem
  rw [List.mem_reverse] at this
  exact h this

theorem space_not_mem_buildTagsAux (segs : List Str) : ' ' ∉ buildTagsAux segs := by
  induction segs with
  | nil => simp [buildTagsAux]
  | cons x rest ih =>
    cases rest with
    | nil =>
      rw [buildTagsAux]
      exact space_not_mem_trimEndMatchesMd _ (space_not_mem_replaceSpaces x)
    | cons y rest2 =>
      rw [show buildTagsAux (x :: y :: rest2) =
        replaceSpaces x ++ '/' :: buildTagsAux (y :: rest2) from rfl]
      intro hmem
      rcases List.mem_append.1 hmem with h1 | h2
      · exact space_not_mem_replaceSpaces x h1
      · rcases List.mem_cons.1 h2 with h3 | h4
        · exact absurd h3 (by decide)
        · exact ih h4

/-- C10: every tag the deriver returns starts with `'#'` and contains no
space character. -/
theorem tag_starts_hash_no_space (segs : List Str) (tg : Str)
    (h : buildTags segs = some tg) :
    tg.head? = some '#' ∧ ' ' ∉ tg := by
  rw [buildTags] at h
  split at h
  · exact Option.noConfusion h
  injection h with h
  subst h
  refine ⟨rfl, ?_⟩
  intro hmem
  rcases List.mem_cons.1 hmem with h1 | h2
  · exact absurd h1 (by decide)
  · exact space_not_mem_buildTagsAux segs h2

/-- C10 witness: the two-segment path with a space in a directory name. -/
theorem tag_starts_hash_no_space_witness :
    ("#blah-bah/foo".data).head? = some '#' ∧ ' ' ∉ "#blah-bah/foo".data :=
  tag_starts_hash_no_space ["blah bah".data, "foo.md".data] "#blah-bah/foo".data
    (by decide)

/-! ### C2 -/

theorem findSome_fmLineValue_eq (key : Str) (l : List Str) :
    l.findSome? (fmLineValue key) =
      (l.find? (fun line => key.isPrefixOf (rustTrim line))).map
        (fun line => rustTrimStart ((rustTrim line).drop key.length)) := by
  induction l with
  | nil => rfl
  | cons a l ih =>
    rw [List.findSome?_cons, List.find?_cons]
    by_cases hp : key.isPrefixOf (rustTrim a) = true
    · have hv : fmLineValue key a =
          some (rustTrimStart ((rustTrim a).drop key.length)) := by
        rw [fmLineValue, if_pos hp]
      rw [hv, hp]
      rfl
    · have hp' : key.isPrefixOf (rustTrim a) = false := Bool.of_not_eq_true hp
      have hv : fmLineValue key a = none := by
        rw [fmLineValue, if_neg hp]
      rw [hv, hp']
      exact ih

/-- C2 counterexample: in `"title:\ntitle: Real\n"` the first `title:`
line has a blank value; the code returns nothing, while the claim's
first-non-empty-value extractor returns `"Real"` — so a blank-valued key
occurrence is NOT treated identically to the key being absent. -/
theorem find_value_counterexample :
    findFrontMatterValue shadowFm TITLE_KEY = none ∧
    findFrontMatterValueClaim shadowFm TITLE_KEY = some "Real".data ∧
    findFrontMatterValue shadowFm TITLE_KEY ≠
      findFrontMatterValueClaim shadowFm TITLE_KEY :=
  ⟨by decide, by decide, by decide⟩

/-- C2 amended: the extractor stops at the FIRST line whose trimmed form
starts with the key, returning its prefix-stripped, left-trimmed value if
non-empty and otherwise reporting the key absent — even when a later line
carries a non-empty value (illustrated by the second conjunct). -/
theorem find_value_first_line_wins (frontMatter key : Str) :
    findFrontMatterValue frontMatter key =
      findFrontMatterValueAmended frontMatter key ∧
    findFrontMatterValue shadowFm TITLE_KEY = none := by
  refine ⟨?_, by decide⟩
  rw [findFrontMatterValue, findFrontMatterValueAmended]
  dsimp only
  rw [findSome_fmLineValue_eq]
  cases hf : (rustLines frontMatter).find?
      (fun line => key.isPrefixOf (rustTrim line)) with
  | none => rfl
  | some line =>
    dsimp only [Option.map]
    by_cases hv : (rustTrimStart ((rustTrim line).drop key.length)).isEmpty = true
    · simp [hv]
    · simp [hv]

/-! ### C3 -/

theorem buildTagsAux_eq (x : Str) : ∀ rest : List Str,
    buildTagsAux (x :: rest) =
      ((x :: rest).dropLast.map (fun seg => replaceSpaces seg ++ ['/'])).flatten
        ++ trimEndMatchesMd (replaceSpaces ((x :: rest).getLastD [])) := by
  intro rest
  induction rest generalizing x with
  | nil => simp [buildTagsAux]
  | cons y rest2 ih =>
    rw [show buildTagsAux (x :: y :: rest2) =
      replaceSpaces x ++ '/' :: buildTagsAux (y :: rest2) from rfl]
    rw [ih y]
    simp [List.getLastD_cons, List.append_assoc]

/-- C3 counterexample: for the single-segment path `"foo.md.md"` the
code's `trim_end_matches(".md")` strips the suffix repeatedly, yielding
`"#foo"`, while the claim's strip-one-trailing-`.md` transformation
yields `"#foo.md"`. -/
theorem build_tags_counterexample :
    buildTags doubleMdPath = some "#foo".data ∧
    buildTagsSpecWith stripMdOnce doubleMdPath = some "#foo.md".data ∧
    buildTags doubleMdPath ≠ buildTagsSpecWith stripMdOnce doubleMdPath :=
  ⟨by decide, by decide, by decide⟩

/-- C3 amended: the derived tag is `'#'`, then each non-final segment with
spaces replaced by hyphens followed by `'/'`, then the final segment with
spaces replaced by hyphens and trailing `".md"` suffixes REPEATEDLY
stripped (and only from the final segment); a path with zero segments
yields no tag; `"foo.md"` yields `"#foo"` and `"blah bah/foo.md"` yields
`"#blah-bah/foo"`. -/
theorem build_tags_amended (segs : List Str) :
    buildTags segs = buildTagsSpecWith trimEndMatchesMd segs ∧
    buildTags ["foo.md".data] = some "#foo".data ∧
    buildTags ["blah bah".data, "foo.md".data] = some "#blah-bah/foo".data ∧
    buildTags [] = none := by
  refine ⟨?_, by decide, by decide, by decide⟩
  cases segs with
  | nil => rfl
  | cons x rest =>
    rw [buildTags, buildTagsSpecWith.eq_def]
    rw [if_neg (by simp)]
    rw [buildTagsAux_eq x rest]

/-! ### C5 -/

/-- C5: a syntactically well-formed calendar date-time with no UTC-offset
suffix (here with arbitrary digits and any accepted separator) is
rejected by the RFC 3339 parser — never silently treated as UTC — and in
particular a `created` value of `"2024-03-07T23:22:26"` makes `build`
fail with the invalid-created-format error. -/
theorem no_offset_rejected (c1 c2 c3 c4 c5 c6 c7 c8 c9 c10 c11 c12 c13 c14 sep : Char)
    (h1 : c1.isDigit = true) (h2 : c2.isDigit = true) (h3 : c3.isDigit = true)
    (h4 : c4.isDigit = true) (h5 : c5.isDigit = true) (h6 : c6.isDigit = true)
    (h7 : c7.isDigit = true) (h8 : c8.isDigit = true) (h9 : c9.isDigit = true)
    (h10 : c10.isDigit = true) (h11 : c11.isDigit = true) (h12 : c12.isDigit = true)
    (h13 : c13.isDigit = true) (h14 : c14.isDigit = true)
    (hsep : sep = 'T' ∨ sep = 't' ∨ sep = ' ') :
    parseRfc3339 [c1, c2, c3, c4, '-', c5, c6, '-', c7, c8, sep,
      c9, c10, ':', c11, c12, ':', c13, c14] = none ∧
    build samplePath1 noOffsetText = .error "Could not parse created date" := by
  refine ⟨?_, by decide⟩
  have hsep' : parseSep (sep :: [c9, c10, ':', c11, c12, ':', c13, c14]) =
      some [c9, c10, ':', c11, c12, ':', c13, c14] := by
    rcases hsep with h | h | h <;> rw [h, parseSep] <;> rfl
  simp only [parseRfc3339, parseDigits4, parseDigits2, expectChar, parseFrac,
    parseOffset, h1, h2, h3, h4, h5, h6, h7, h8, h9, h10, h11, h12, h13, h14,
    hsep', Bool.and_self, Bool.and_true, if_true, reduceIte]

/-- C5 witness: the scenario-3 date string, digit by digit. -/
theorem no_offset_rejected_witness :
    parseRfc3339 ['2', '0', '2', '4', '-', '0', '3', '-', '0', '7', 'T',
      '2', '3', ':', '2', '2', ':', '2', '6'] = none ∧
    build samplePath1 noOffsetText = .error "Could not parse created date" :=
  no_offset_rejected '2' '0' '2' '4' '0' '3' '0' '7' '2' '3' '2' '2' '2' '6' 'T'
    rfl rfl rfl rfl rfl rfl rfl rfl rfl rfl rfl rfl rfl rfl (Or.inl rfl)
